import Mathlib

/-!
Verification of the multi-layer animation time-scaling coordinator
("Slooow" browser extension) against its natural-language specification.

Timestamps, speed factors and playback rates are modelled as rationals
(the source uses IEEE doubles; all claims are about exact arithmetic
identities, which ℚ captures).

Components embedded here:
* the virtual-clock scheduler installed by `slooowRAF` (MAIN-world
  content script): per-frame handler, message listener, session token;
* the WAAPI rate store `applyWAAPI` / `resetWAAPI` (Layer 1);
* the GSAP adapter `applyGSAP` / `resetGSAP` / `startGSAPPolling`
  (Layer 2), together with the detection callback wired up by the
  ISOLATED-world content script.
-/

namespace Slooow

/-- Constant `MAX_DELTA = 100` ms — caps timestamp jumps after a tab switch. -/
def MAX_DELTA : ℚ := 100

/-- The mutable state of the virtual-clock scheduler:
`speedFactor`, `lastRealTime`, `virtualTime` (the two anchors are
`null` until seeded). -/
structure ClockState where
  speedFactor : ℚ
  lastRealTime : Option ℚ
  virtualTime : Option ℚ
  deriving DecidableEq, Repr

/-- Initial scheduler state: `speedFactor = 1`, both anchors unset. -/
def initClock : ClockState :=
  { speedFactor := 1, lastRealTime := none, virtualTime := none }

/-- The per-frame handler that `slooowRAF` wraps around every callback.
Given the current state and the real timestamp it returns the new state
and the timestamp delivered to the callback:
* at `speedFactor = 1` it passes the real timestamp through unchanged;
* otherwise it seeds both anchors with the real timestamp when
  `lastRealTime` is `null`, then clamps the real delta to `MAX_DELTA`,
  advances `virtualTime` by `delta * speedFactor` and delivers it.
(`Option.getD 0` renders the source's non-null assertion `virtualTime!`;
after the seeding step both anchors are always set.) -/
def slooowRAF (s : ClockState) (realTimestamp : ℚ) : ClockState × ℚ :=
  if s.speedFactor = 1 then
    (s, realTimestamp)
  else
    let s1 := if s.lastRealTime = none then
        { s with lastRealTime := some realTimestamp,
                 virtualTime := some realTimestamp }
      else s
    let delta := min (realTimestamp - s1.lastRealTime.getD 0) MAX_DELTA
    let virt := s1.virtualTime.getD 0 + delta * s.speedFactor
    ({ s1 with lastRealTime := some realTimestamp, virtualTime := some virt },
     virt)

/-- A message received by the scheduler's `window` listener.
`sourceIsWindow` models `e.source === window`; `hasData` models the
truthiness check `!d`; the remaining fields are `d.tag`, `d.token`,
`d.type` and `d.speed`. -/
structure BridgeMsg where
  sourceIsWindow : Bool
  hasData : Bool
  tag : String
  token : String
  type : String
  speed : ℚ
  deriving DecidableEq, Repr

/-- The scheduler-side message listener: drops any message that is not
from the same window, has no data, a wrong tag or a wrong token; a
surviving `SET_SPEED` message sets `speedFactor` and clears both
anchors. -/
def handleMessage (sessionToken : String) (s : ClockState) (m : BridgeMsg) :
    ClockState :=
  if m.sourceIsWindow = false then s
  else if m.hasData = false then s
  else if m.tag ≠ "__slooow__" then s
  else if m.token ≠ sessionToken then s
  else if m.type = "SET_SPEED" then
    { speedFactor := m.speed, lastRealTime := none, virtualTime := none }
  else s

/-- An event observed by the scheduler: a delivered animation frame with
its real timestamp, or a posted window message. -/
inductive SchedEvent where
  | frame (t : ℚ)
  | msg (m : BridgeMsg)
  deriving DecidableEq, Repr

/-- Run the scheduler over a list of events, collecting the timestamps
delivered to frame callbacks. -/
def runSched (tok : String) (s : ClockState) :
    List SchedEvent → ClockState × List ℚ
  | [] => (s, [])
  | SchedEvent.frame t :: rest =>
      let p := slooowRAF s t
      let q := runSched tok p.1 rest
      (q.1, p.2 :: q.2)
  | SchedEvent.msg m :: rest => runSched tok (handleMessage tok s m) rest

/-- Real timestamps obtained from a start time and a list of successive
deltas: `deltaTimes t0 [d1, d2] = [t0 + d1, t0 + d1 + d2]`. -/
def deltaTimes (t0 : ℚ) : List ℚ → List ℚ
  | [] => []
  | d :: ds => (t0 + d) :: deltaTimes (t0 + d) ds

/-! ### Layer 1 — WAAPI rate store (`waapi` module) -/

/-- Animation objects are identified by object identity; we model the
identity as a natural number.  `rate a` is animation `a`'s live
`playbackRate`; `originalRates` is the `WeakMap` of baselines, as an
association list (each animation holds at most one entry, since the
source inserts only when the key is absent). -/
structure WAAPIWorld where
  rate : ℕ → ℚ
  originalRates : List (ℕ × ℚ)

/-- Membership test of the `WeakMap` (`has`). -/
def wmHas (m : List (ℕ × ℚ)) (k : ℕ) : Bool :=
  (m.find? (fun p => p.1 = k)).isSome

/-- Lookup in the `WeakMap` (`get`; `none` for a missing key). -/
def wmGet (m : List (ℕ × ℚ)) (k : ℕ) : Option ℚ :=
  (m.find? (fun p => p.1 = k)).map Prod.snd

/-- Removal from the `WeakMap` (`delete`). -/
def wmDelete (m : List (ℕ × ℚ)) (k : ℕ) : List (ℕ × ℚ) :=
  m.filter (fun p => p.1 ≠ k)

/-- One iteration of `applyWAAPI`'s `forEach` body: capture the baseline
on first touch, then set `playbackRate := baseline * speed`.
(`Option.getD 0` renders the source's non-null assertion
`originalRates.get(a)!`; the preceding step guarantees presence.) -/
def applyWAAPIOne (speed : ℚ) (w : WAAPIWorld) (a : ℕ) : WAAPIWorld :=
  let w1 := if wmHas w.originalRates a then w
    else { w with originalRates := (a, w.rate a) :: w.originalRates }
  { w1 with
    rate := fun x => if x = a then (wmGet w1.originalRates a).getD 0 * speed
      else w1.rate x }

/-- Operation `applyWAAPI(speed, targets)`: iterate the body over the target
animations. -/
def applyWAAPI (speed : ℚ) (targets : List ℕ) (w : WAAPIWorld) : WAAPIWorld :=
  targets.foldl (applyWAAPIOne speed) w

/-- One iteration of `resetWAAPI`'s `forEach` body: for a tracked
animation, restore the baseline rate and delete its entry; otherwise do
nothing. -/
def resetWAAPIOne (w : WAAPIWorld) (a : ℕ) : WAAPIWorld :=
  if wmHas w.originalRates a then
    { rate := fun x => if x = a then (wmGet w.originalRates a).getD 0
        else w.rate x,
      originalRates := wmDelete w.originalRates a }
  else w

/-- Operation `resetWAAPI(targets)`: iterate the body over the target animations. -/
def resetWAAPI (targets : List ℕ) (w : WAAPIWorld) : WAAPIWorld :=
  targets.foldl resetWAAPIOne w

/-! ### Layer 2 — GSAP adapter (`gsap` module) -/

/-- The GSAP world: `timeline = some ts` when `getGSAPTimeline()`
returns a reachable global timeline whose current `timeScale` is `ts`,
`none` when neither global binding exposes one; `originalGSAPTimeScale`
is the module-level baseline. -/
structure GSAPWorld where
  timeline : Option ℚ
  originalGSAPTimeScale : Option ℚ
  deriving DecidableEq, Repr

/-- Operation `detectGSAP()`: whether the global timeline is reachable. -/
def detectGSAP (w : GSAPWorld) : Bool :=
  w.timeline.isSome

/-- Operation `applyGSAP(speed)`: returns `false` and changes no state when the timeline is
unreachable; otherwise capture the baseline on first touch, set
`timeScale := baseline * speed`, and return `true`. -/
def applyGSAP (speed : ℚ) (w : GSAPWorld) : GSAPWorld × Bool :=
  match w.timeline with
  | none => (w, false)
  | some ts =>
      let base := w.originalGSAPTimeScale.getD ts
      ({ timeline := some (base * speed), originalGSAPTimeScale := some base },
       true)

/-- Operation `resetGSAP()`: a no-op when no baseline is captured; otherwise write
the baseline back to the timeline's `timeScale` — skipping the write if
the timeline handle is now missing (`getGSAPTimeline()?.`) — and clear
the baseline. -/
def resetGSAP (w : GSAPWorld) : GSAPWorld :=
  match w.originalGSAPTimeScale with
  | none => w
  | some base =>
      { timeline := w.timeline.map (fun _ => base),
        originalGSAPTimeScale := none }

/-- Poll interval: 250 time units. -/
def POLL_INTERVAL : ℕ := 250

/-- Total polling window: 5000 time units. -/
def MAX_WAIT : ℕ := 5000

/-- Result of a polling run: the engine was already detected before the
interval started, or a tick detected it (after `checks` interval
checks), or the window elapsed (after `checks` interval checks). -/
inductive PollResult where
  | immediate
  | detected (checks : ℕ)
  | timedOut (checks : ℕ)
  deriving DecidableEq, Repr

/-- The `setInterval` body of `startGSAPPolling`, unrolled tick by tick:
at tick `k` (1-based) `elapsed = k * POLL_INTERVAL`; a successful
`detectGSAP` stops with detection, else the loop stops once
`elapsed ≥ MAX_WAIT`.  `detectAt k` says whether `detectGSAP()` returns
`true` at tick `k`.  `fuel` only bounds the recursion; any
`fuel ≥ MAX_WAIT / POLL_INTERVAL` is never exhausted. -/
def pollTicks (detectAt : ℕ → Bool) : ℕ → ℕ → Bool × ℕ
  | _, 0 => (false, 0)
  | tick, fuel + 1 =>
      if detectAt tick then (true, tick)
      else if MAX_WAIT ≤ tick * POLL_INTERVAL then (false, tick)
      else pollTicks detectAt (tick + 1) fuel

/-- Operation `startGSAPPolling(onDetected)`: an immediate `detectGSAP()` check,
then the bounded interval loop. -/
def startGSAPPolling (detectAt : ℕ → Bool) : PollResult :=
  if detectAt 0 then PollResult.immediate
  else
    match pollTicks detectAt 1 (MAX_WAIT / POLL_INTERVAL) with
    | (true, k) => PollResult.detected k
    | (false, k) => PollResult.timedOut k

/-- The `onDetected` callback the ISOLATED-world content script passes
to `startGSAPPolling`: on detection, apply the then-current speed when
slow-mo is enabled (`currentSpeed ≠ null`). -/
def onGSAPDetected (currentSpeed : Option ℚ) (w : GSAPWorld) : GSAPWorld :=
  match currentSpeed with
  | none => w
  | some sp => (applyGSAP sp w).1

/-! ### Trace predicates for the scheduler claims -/

/-- A correctly-authenticated `SET_SPEED` message whose speed lies in
`(0, 1]`: same window, truthy data, correct tag, matching session
token. -/
def validSetSpeed (tok : String) (m : BridgeMsg) : Prop :=
  m.sourceIsWindow = true ∧ m.hasData = true ∧ m.tag = "__slooow__"
    ∧ m.token = tok ∧ m.type = "SET_SPEED" ∧ 0 < m.speed ∧ m.speed ≤ 1

/-- An event admissible in a C10 interleaving: any frame, or an
authenticated `SET_SPEED` with speed in `(0, 1]`. -/
def validEvent (tok : String) : SchedEvent → Prop
  | SchedEvent.frame _ => True
  | SchedEvent.msg m => validSetSpeed tok m

/-- The real timestamps of the frames in an event list are
nondecreasing, each also no earlier than an optional previous frame
time `lf`. -/
def framesMono : Option ℚ → List SchedEvent → Prop
  | _, [] => True
  | lf, SchedEvent.frame t :: rest =>
      (∀ tp, lf = some tp → tp ≤ t) ∧ framesMono (some t) rest
  | lf, SchedEvent.msg _ :: rest => framesMono lf rest

/-- A list of delivered timestamps is nondecreasing, its head no
smaller than an optional previously delivered timestamp `ld`. -/
def outMono : Option ℚ → List ℚ → Prop
  | _, [] => True
  | ld, x :: xs => (∀ p, ld = some p → p ≤ x) ∧ outMono (some x) xs

/-- The invariant that carries the C10 monotonicity proof through a
run: the speed factor stays in `(0, 1]`; either both anchors are unset,
or both are set, `virtualTime` never exceeds `lastRealTime`,
`lastRealTime` is the last frame time, the last delivered timestamp is
`virtualTime`, and the factor is not 1; and the last delivered
timestamp (if any) never exceeds the last frame time. -/
def ClockInv (s : ClockState) (ld lf : Option ℚ) : Prop :=
  (0 < s.speedFactor ∧ s.speedFactor ≤ 1)
  ∧ ((s.lastRealTime = none ∧ s.virtualTime = none)
      ∨ (∃ lr v, s.lastRealTime = some lr ∧ s.virtualTime = some v
          ∧ v ≤ lr ∧ lf = some lr ∧ ld = some v ∧ s.speedFactor ≠ 1))
  ∧ (∀ x, ld = some x → ∃ t, lf = some t ∧ x ≤ t)

end Slooow

open Slooow

/-! ### Claims C2 and C6 — WAAPI rate store -/

/-- C2: for `f ∈ (0,1]` and an animation with pre-existing rate `r0`
that the store has not yet touched, `applyWAAPI f` sets the rate to
exactly `r0 * f`; and after a second `applyWAAPI f2` with no
intervening reset — even with an arbitrary external mutation of the
live rates in between — the stored baseline is still `r0` and the final
rate is `r0 * f2`. -/
theorem applyWAAPI_baseline_capture (w : WAAPIWorld) (a : ℕ) (r0 f1 f2 : ℚ)
    (hf1 : 0 < f1) (hf1' : f1 ≤ 1) (hf2 : 0 < f2) (hf2' : f2 ≤ 1)
    (hrate : w.rate a = r0) (huntouched : wmHas w.originalRates a = false)
    (rateMut : ℕ → ℚ) :
    (applyWAAPI f1 [a] w).rate a = r0 * f1
    ∧ (applyWAAPI f2 [a]
        { applyWAAPI f1 [a] w with rate := rateMut }).rate a = r0 * f2
    ∧ wmGet (applyWAAPI f2 [a]
        { applyWAAPI f1 [a] w with rate := rateMut }).originalRates a
        = some r0 := by
  have hget : wmGet ((a, w.rate a) :: w.originalRates) a = some r0 := by
    simp [wmGet, List.find?, hrate]
  have hhas : wmHas ((a, w.rate a) :: w.originalRates) a = true := by
    simp [wmHas, List.find?]
  have h1 : applyWAAPI f1 [a] w =
      { rate := fun x => if x = a then r0 * f1 else w.rate x,
        originalRates := (a, w.rate a) :: w.originalRates } := by
    simp [applyWAAPI, applyWAAPIOne, huntouched, hget]
  have h2 : applyWAAPI f2 [a]
      { applyWAAPI f1 [a] w with rate := rateMut } =
      { rate := fun x => if x = a then r0 * f2 else rateMut x,
        originalRates := (a, w.rate a) :: w.originalRates } := by
    rw [h1]
    simp [applyWAAPI, applyWAAPIOne, hhas, hget]
  refine ⟨?_, ?_, ?_⟩
  · rw [h1]
    simp
  · rw [h2]
    simp
  · rw [h2]
    exact hget

/-- Witness for C2: a fresh store with rate 2 on animation 0, speeds
`1/4` then `1/2`, external mutation setting every rate to 77. -/
theorem applyWAAPI_baseline_capture_witness :
    ((0:ℚ) < 1/4) ∧
    (applyWAAPI (1/4) [0] (WAAPIWorld.mk (fun _ => 2) [])).rate 0 = 2 * (1/4)
    ∧ (applyWAAPI (1/2) [0]
        { applyWAAPI (1/4) [0] (WAAPIWorld.mk (fun _ => 2) []) with
          rate := fun _ => 77 }).rate 0 = 2 * (1/2)
    ∧ wmGet (applyWAAPI (1/2) [0]
        { applyWAAPI (1/4) [0] (WAAPIWorld.mk (fun _ => 2) []) with
          rate := fun _ => 77 }).originalRates 0 = some 2 := by
  have h := applyWAAPI_baseline_capture (WAAPIWorld.mk (fun _ => 2) []) 0 2
    (1/4) (1/2) (by norm_num) (by norm_num) (by norm_num) (by norm_num)
    rfl (by simp [wmHas]) (fun _ => 77)
  exact ⟨by norm_num, h.1, h.2.1, h.2.2⟩

/-- C6: resetting an animation whose baseline entry is `r0` restores
its rate to exactly `r0` and removes the entry; resetting an animation
absent from the store leaves the world unchanged.  In particular, an
`applyWAAPI` on a previously untouched animation followed by
`resetWAAPI` restores the original rate with no tracked entry left. -/
theorem resetWAAPI_round_trip (w : WAAPIWorld) (a : ℕ) (r0 f : ℚ) :
    (wmGet w.originalRates a = some r0 →
      (resetWAAPI [a] w).rate a = r0
      ∧ wmHas (resetWAAPI [a] w).originalRates a = false)
    ∧ (wmHas w.originalRates a = false → resetWAAPI [a] w = w)
    ∧ (wmHas w.originalRates a = false → w.rate a = r0 →
        (resetWAAPI [a] (applyWAAPI f [a] w)).rate a = r0
        ∧ wmHas (resetWAAPI [a] (applyWAAPI f [a] w)).originalRates a
            = false) := by
  have hdel : ∀ m : List (ℕ × ℚ), wmHas (wmDelete m a) a = false := by
    intro m
    simp [wmHas, wmDelete, List.find?_eq_none]
  refine ⟨?_, ?_, ?_⟩
  · intro hget
    have hhas : wmHas w.originalRates a = true := by
      unfold wmGet at hget
      rcases Option.map_eq_some'.mp hget with ⟨p, hp, _⟩
      simp [wmHas, hp]
    constructor
    · simp [resetWAAPI, resetWAAPIOne, hhas, hget]
    · simp [resetWAAPI, resetWAAPIOne, hhas, hdel]
  · intro hnot
    simp [resetWAAPI, resetWAAPIOne, hnot]
  · intro hnot hrate
    have hget : wmGet ((a, w.rate a) :: w.originalRates) a = some r0 := by
      simp [wmGet, List.find?, hrate]
    have hhas : wmHas ((a, w.rate a) :: w.originalRates) a = true := by
      simp [wmHas, List.find?]
    have h1 : applyWAAPI f [a] w =
        { rate := fun x => if x = a then r0 * f else w.rate x,
          originalRates := (a, w.rate a) :: w.originalRates } := by
      simp [applyWAAPI, applyWAAPIOne, hnot, hget]
    rw [h1]
    constructor
    · simp [resetWAAPI, resetWAAPIOne, hhas, hget]
    · simp [resetWAAPI, resetWAAPIOne, hhas, hdel]

/-- Witness for C6: a store tracking animation 3 with baseline 2 and
live rate 1/2, plus the untouched case on an empty store with rate 5,
plus the round trip at speed 1/4. -/
theorem resetWAAPI_round_trip_witness :
    (wmGet [(3, 2)] 3 = some 2) ∧
    (resetWAAPI [3] (WAAPIWorld.mk (fun _ => 1/2) [(3, 2)])).rate 3 = 2
    ∧ wmHas (resetWAAPI [3]
        (WAAPIWorld.mk (fun _ => 1/2) [(3, 2)])).originalRates 3 = false
    ∧ resetWAAPI [3] (WAAPIWorld.mk (fun _ => 5) [])
        = WAAPIWorld.mk (fun _ => 5) []
    ∧ (resetWAAPI [3] (applyWAAPI (1/4) [3]
        (WAAPIWorld.mk (fun _ => 5) []))).rate 3 = 5 := by
  have ha := resetWAAPI_round_trip (WAAPIWorld.mk (fun _ => 1/2) [(3, 2)]) 3 2
    (1/4)
  have hb := resetWAAPI_round_trip (WAAPIWorld.mk (fun _ => 5) []) 3 5 (1/4)
  have hget : wmGet [((3:ℕ), (2:ℚ))] 3 = some 2 := by simp [wmGet]
  have hnot : wmHas ([] : List (ℕ × ℚ)) 3 = false := by simp [wmHas]
  exact ⟨hget, (ha.1 hget).1, (ha.1 hget).2, hb.2.1 hnot,
    (hb.2.2 hnot rfl).1⟩

/-! ### Claim C5 — pass-through at normal speed -/

/-- C5: whenever `speedFactor = 1`, the frame handler delivers the real
timestamp exactly (for any real delta, including deltas exceeding
`MAX_DELTA`) and mutates no scheduler state. -/
theorem passthrough_at_normal_speed (s : ClockState) (t : ℚ)
    (h : s.speedFactor = 1) : slooowRAF s t = (s, t) := by
  simp [slooowRAF, h]

/-- Witness for C5 at the initial state and timestamp 123456. -/
theorem passthrough_at_normal_speed_witness :
    initClock.speedFactor = 1 ∧ slooowRAF initClock 123456 = (initClock, 123456) :=
  ⟨rfl, passthrough_at_normal_speed initClock 123456 rfl⟩

/-! ### Claim C1 — virtual-clock frame delivery with anchors set -/

/-- Helper for C1: running a frame sequence given by in-range deltas from
an anchored state advances `virtualTime` by the speed factor times the
sum of the deltas (and tracks real time in `lastRealTime`). -/
theorem runSched_deltaTimes (tok : String) (f : ℚ) (hf : f ≠ 1) :
    ∀ (ds : List ℚ) (t0 v0 : ℚ), (∀ d ∈ ds, 0 ≤ d ∧ d ≤ MAX_DELTA) →
      (runSched tok ⟨f, some t0, some v0⟩
          ((deltaTimes t0 ds).map SchedEvent.frame)).1 =
        ⟨f, some (t0 + ds.sum), some (v0 + f * ds.sum)⟩
  | [], t0, v0, _ => by simp [deltaTimes, runSched]
  | d :: ds, t0, v0, h => by
      obtain ⟨⟨hd0, hd1⟩, hds⟩ := by
        simpa using h
      have hstep : slooowRAF ⟨f, some t0, some v0⟩ (t0 + d) =
          (⟨f, some (t0 + d), some (v0 + d * f)⟩, v0 + d * f) := by
        simp [slooowRAF, hf]
        all_goals exact Or.inl hd1
      have ih := runSched_deltaTimes tok f hf ds (t0 + d) (v0 + d * f) hds
      simp only [deltaTimes, List.map_cons, runSched, hstep, ih, List.sum_cons,
        ClockState.mk.injEq, Option.some.injEq, true_and]
      constructor <;> ring

/-- C1: with anchors set and `speedFactor = s ≠ 1`, a frame whose real
timestamp exceeds `lastRealTime` by `D ≥ 0` advances `virtualTime` by
exactly `min(D, 100) * s` and delivers the new `virtualTime`; hence a
delta sequence with every delta ≤ `MAX_DELTA` accumulates a virtual
delta of `s * sum(di)`, and a single real delta of 5000 at `s = 1/4`
yields a virtual delta of exactly 25. -/
theorem virtualClock_frame_delivery (f lr v D : ℚ) (hf : f ≠ 1) (hD : 0 ≤ D) :
    slooowRAF ⟨f, some lr, some v⟩ (lr + D) =
      (⟨f, some (lr + D), some (v + min D MAX_DELTA * f)⟩,
       v + min D MAX_DELTA * f)
    ∧ (∀ (tok : String) (ds : List ℚ) (t0 v0 : ℚ),
        (∀ d ∈ ds, 0 ≤ d ∧ d ≤ MAX_DELTA) →
        (runSched tok ⟨f, some t0, some v0⟩
            ((deltaTimes t0 ds).map SchedEvent.frame)).1.virtualTime =
          some (v0 + f * ds.sum))
    ∧ (slooowRAF ⟨1/4, some lr, some v⟩ (lr + 5000)).2 = v + 25 := by
  refine ⟨?_, ?_, ?_⟩
  · simp [slooowRAF, hf]
  · intro tok ds t0 v0 h
    rw [runSched_deltaTimes tok f hf ds t0 v0 h]
  · have h4 : (1/4 : ℚ) ≠ 1 := by norm_num
    simp [slooowRAF, h4, MAX_DELTA]
    rw [min_eq_right (by norm_num)]
    norm_num

/-! ### Claim C3 — speed change reseeds without a jump -/

/-- C3: a valid `SET_SPEED(f)` sets `speedFactor := f` and
unconditionally clears both anchors; the very next delivered frame
produces a virtual delta of 0 — it delivers its own real timestamp,
merely seeding the anchors when `f ≠ 1` — and the frame after scales
its real delta by the new factor `f`. -/
theorem setSpeed_reseed_without_jump (tok : String) (s : ClockState)
    (m : BridgeMsg) (hsrc : m.sourceIsWindow = true) (hdata : m.hasData = true)
    (htag : m.tag = "__slooow__") (htok : m.token = tok)
    (htype : m.type = "SET_SPEED") :
    handleMessage tok s m = ⟨m.speed, none, none⟩
    ∧ (∀ t1 t2 : ℚ, 0 ≤ t2 - t1 → t2 - t1 ≤ MAX_DELTA →
        (runSched tok (handleMessage tok s m)
            [SchedEvent.frame t1, SchedEvent.frame t2]).2 =
          [t1, t1 + (t2 - t1) * m.speed])
    ∧ (∀ t1 : ℚ, m.speed ≠ 1 →
        (slooowRAF (handleMessage tok s m) t1).1 =
          ⟨m.speed, some t1, some t1⟩) := by
  have hmsg : handleMessage tok s m = ⟨m.speed, none, none⟩ := by
    simp [handleMessage, hsrc, hdata, htag, htok, htype]
  refine ⟨hmsg, ?_, ?_⟩
  · intro t1 t2 h0 hM
    rw [hmsg]
    by_cases hf : m.speed = 1
    · simp [runSched, slooowRAF, hf]
    · have h1 : slooowRAF ⟨m.speed, none, none⟩ t1 =
          (⟨m.speed, some t1, some t1⟩, t1) := by
        simp [slooowRAF, hf]
        all_goals exact Or.inl (by norm_num [MAX_DELTA])
      have h2 : slooowRAF ⟨m.speed, some t1, some t1⟩ t2 =
          (⟨m.speed, some t2, some (t1 + (t2 - t1) * m.speed)⟩,
           t1 + (t2 - t1) * m.speed) := by
        simp [slooowRAF, hf]
        all_goals exact Or.inl (by linarith)
      simp [runSched, h1, h2]
  · intro t1 hf
    rw [hmsg]
    simp [slooowRAF, hf]
    all_goals exact Or.inl (by norm_num [MAX_DELTA])

/-- Witness for C3 with token `"t"`, a valid message of speed `1/2`,
and frames at 200 and 260. -/
theorem setSpeed_reseed_without_jump_witness :
    (BridgeMsg.mk true true "__slooow__" "t" "SET_SPEED" (1/2)).sourceIsWindow
      = true ∧
    (runSched "t"
        (handleMessage "t" initClock
          (BridgeMsg.mk true true "__slooow__" "t" "SET_SPEED" (1/2)))
        [SchedEvent.frame 200, SchedEvent.frame 260]).2 = [200, 230] := by
  have h := setSpeed_reseed_without_jump "t" initClock
    (BridgeMsg.mk true true "__slooow__" "t" "SET_SPEED" (1/2))
    rfl rfl rfl rfl rfl
  refine ⟨rfl, ?_⟩
  have h2 := h.2.1 200 260 (by norm_num) (by norm_num [MAX_DELTA])
  rw [h2]
  norm_num

/-- Witness for C1 at `f = 1/2`, anchors `(1000, 400)`, delta 30. -/
theorem virtualClock_frame_delivery_witness :
    ((1:ℚ)/2 ≠ 1) ∧ ((0:ℚ) ≤ 30) ∧
    slooowRAF ⟨1/2, some 1000, some 400⟩ (1000 + 30) =
      (⟨1/2, some (1000 + 30), some (400 + min 30 MAX_DELTA * (1/2))⟩,
       400 + min 30 MAX_DELTA * (1/2)) ∧
    (slooowRAF ⟨1/4, some 1000, some 400⟩ (1000 + 5000)).2 = 400 + 25 := by
  have h := virtualClock_frame_delivery (1/2) 1000 400 30 (by norm_num) (by norm_num)
  exact ⟨by norm_num, by norm_num, h.1,
    (virtualClock_frame_delivery (1/2) 1000 400 30 (by norm_num) (by norm_num)).2.2⟩

/-! ### Claim C7 — GSAP apply captures the baseline once -/

/-- C7: `applyGSAP` returns `false` and changes nothing when the global
timeline is unreachable; otherwise it captures the current `timeScale`
as baseline only on the first call, sets `timeScale := baseline * speed`
and returns `true` — so two successive applies without a reset both
derive from the original baseline. -/
theorem applyGSAP_baseline_once (w : GSAPWorld) (sp ts f1 f2 : ℚ) :
    (w.timeline = none → applyGSAP sp w = (w, false))
    ∧ (w.timeline = some ts → w.originalGSAPTimeScale = none →
        applyGSAP f1 w = (⟨some (ts * f1), some ts⟩, true)
        ∧ applyGSAP f2 (applyGSAP f1 w).1 = (⟨some (ts * f2), some ts⟩, true)) := by
  constructor
  · intro h
    simp [applyGSAP, h]
  · intro htl hbase
    have h1 : applyGSAP f1 w = (⟨some (ts * f1), some ts⟩, true) := by
      simp [applyGSAP, htl, hbase]
    refine ⟨h1, ?_⟩
    rw [h1]
    simp [applyGSAP]

/-- Witness for C7: unreachable timeline at speed `1/4`; reachable
timeline with `timeScale` 2, speeds `1/4` then `1/2`. -/
theorem applyGSAP_baseline_once_witness :
    (GSAPWorld.mk none none).timeline = none ∧
    applyGSAP (1/4) (GSAPWorld.mk none none) = (GSAPWorld.mk none none, false)
    ∧ applyGSAP (1/4) (GSAPWorld.mk (some 2) none)
        = (⟨some (2 * (1/4)), some 2⟩, true)
    ∧ applyGSAP (1/2) (applyGSAP (1/4) (GSAPWorld.mk (some 2) none)).1
        = (⟨some (2 * (1/2)), some 2⟩, true) := by
  have ha := applyGSAP_baseline_once (GSAPWorld.mk none none) (1/4) 2 (1/4) (1/2)
  have hb := applyGSAP_baseline_once (GSAPWorld.mk (some 2) none) (1/4) 2
    (1/4) (1/2)
  exact ⟨rfl, ha.1 rfl, (hb.2 rfl rfl).1, (hb.2 rfl rfl).2⟩

/-! ### Claim C8 — GSAP reset tolerates a missing timeline -/

/-- C8: `resetGSAP` is a no-op when no baseline is captured; with a
baseline and a reachable timeline it writes the baseline back and
clears it; with a baseline but a now-missing timeline it skips the
write without error — and still clears the baseline. -/
theorem resetGSAP_tolerates_missing_timeline (w : GSAPWorld) (base : ℚ) :
    (w.originalGSAPTimeScale = none → resetGSAP w = w)
    ∧ (w.originalGSAPTimeScale = some base → ∀ ts, w.timeline = some ts →
        resetGSAP w = ⟨some base, none⟩)
    ∧ (w.originalGSAPTimeScale = some base → w.timeline = none →
        resetGSAP w = ⟨none, none⟩) := by
  refine ⟨?_, ?_, ?_⟩
  · intro h
    simp [resetGSAP, h]
  · intro hb ts htl
    simp [resetGSAP, hb, htl]
  · intro hb htl
    simp [resetGSAP, hb, htl]

/-- Witness for C8: no baseline with timeline at 3; baseline 2 with
timeline at 1/2; baseline 2 with the timeline gone. -/
theorem resetGSAP_tolerates_missing_timeline_witness :
    (GSAPWorld.mk (some 3) none).originalGSAPTimeScale = none ∧
    resetGSAP (GSAPWorld.mk (some 3) none) = GSAPWorld.mk (some 3) none
    ∧ resetGSAP (GSAPWorld.mk (some (1/2)) (some 2)) = ⟨some 2, none⟩
    ∧ resetGSAP (GSAPWorld.mk none (some 2)) = ⟨none, none⟩ := by
  refine ⟨rfl, ?_, ?_, ?_⟩
  · exact (resetGSAP_tolerates_missing_timeline (GSAPWorld.mk (some 3) none)
      2).1 rfl
  · exact (resetGSAP_tolerates_missing_timeline
      (GSAPWorld.mk (some (1/2)) (some 2)) 2).2.1 rfl (1/2) rfl
  · exact (resetGSAP_tolerates_missing_timeline
      (GSAPWorld.mk none (some 2)) 2).2.2 rfl rfl

/-! ### Claim C4 — bridge authentication -/

/-- Helper for C4: a message from another source, or carrying a wrong
token, leaves the scheduler state untouched. -/
theorem handleMessage_bad (tok : String) (m : BridgeMsg)
    (hbad : m.sourceIsWindow = false ∨ m.token ≠ tok) (s : ClockState) :
    handleMessage tok s m = s := by
  unfold handleMessage
  rcases hbad with h | h
  · simp [h]
  · by_cases hsrc : m.sourceIsWindow = false
    · simp [hsrc]
    · by_cases hdata : m.hasData = false
      · simp [hsrc, hdata]
      · by_cases htag : m.tag = "__slooow__"
        · simp [hsrc, hdata, htag, h]
        · simp [hsrc, hdata, htag]

/-- C4: a `SET_SPEED` message whose token differs from the session
token, or whose source is not the same window, changes none of
`speedFactor`, `lastRealTime`, `virtualTime`; and inserting such a
message anywhere into an event sequence leaves the whole run — final
state and every delivered timestamp — unchanged. -/
theorem bridge_rejects_unauthenticated (tok : String) (m : BridgeMsg)
    (hbad : m.sourceIsWindow = false ∨ m.token ≠ tok) :
    (∀ s : ClockState, handleMessage tok s m = s)
    ∧ ∀ (s : ClockState) (pre post : List SchedEvent),
        runSched tok s (pre ++ SchedEvent.msg m :: post)
          = runSched tok s (pre ++ post) := by
  refine ⟨handleMessage_bad tok m hbad, ?_⟩
  intro s pre post
  induction pre generalizing s with
  | nil =>
      simp [runSched, handleMessage_bad tok m hbad]
  | cons e rest ih =>
      cases e with
      | frame t => simp [runSched, ih]
      | msg m' => simp [runSched, ih]

/-- Witness for C4: a forged message (right tag, wrong token) inserted
between two frames at speed `1/2` does not change the delivered
timestamps. -/
theorem bridge_rejects_unauthenticated_witness :
    ((BridgeMsg.mk true true "__slooow__" "forged" "SET_SPEED" (3/4)).token
       ≠ "t") ∧
    runSched "t" ⟨1/2, some 100, some 40⟩
        ([SchedEvent.frame 130] ++
          SchedEvent.msg
            (BridgeMsg.mk true true "__slooow__" "forged" "SET_SPEED" (3/4))
            :: [SchedEvent.frame 160])
      = runSched "t" ⟨1/2, some 100, some 40⟩
          ([SchedEvent.frame 130] ++ [SchedEvent.frame 160]) := by
  have h := bridge_rejects_unauthenticated "t"
    (BridgeMsg.mk true true "__slooow__" "forged" "SET_SPEED" (3/4))
    (Or.inr (by decide))
  exact ⟨by decide, h.2 ⟨1/2, some 100, some 40⟩ [SchedEvent.frame 130]
    [SchedEvent.frame 160]⟩

/-! ### Claim C9 — bounded engine polling -/

/-- Helper for C9: inversion of a detecting run of the interval loop.
With enough fuel and a start tick in range, a `(true, k)` outcome means
tick `k` detected the engine, `k` lies within the 20-tick window, and
no earlier tick detected it. -/
theorem pollTicks_detected (detectAt : ℕ → Bool) :
    ∀ (fuel tick k : ℕ), 21 ≤ tick + fuel → tick ≤ 20 →
      pollTicks detectAt tick fuel = (true, k) →
      detectAt k = true ∧ tick ≤ k ∧ k ≤ 20
        ∧ ∀ j, tick ≤ j → j < k → detectAt j = false
  | 0, tick, k, hfuel, htick, heq => by omega
  | fuel + 1, tick, k, hfuel, htick, heq => by
      rw [pollTicks] at heq
      by_cases hd : detectAt tick = true
      · rw [if_pos hd] at heq
        have hk : tick = k := by simpa using heq
        subst hk
        exact ⟨hd, le_refl _, htick, fun j h1 h2 => absurd (lt_of_le_of_lt h1 h2)
          (lt_irrefl _)⟩
      · rw [if_neg hd] at heq
        by_cases hel : MAX_WAIT ≤ tick * POLL_INTERVAL
        · rw [if_pos hel] at heq
          exact absurd heq (by simp)
        · rw [if_neg hel] at heq
          have htick' : tick + 1 ≤ 20 := by
            simp [MAX_WAIT, POLL_INTERVAL] at hel
            omega
          have ih := pollTicks_detected detectAt fuel (tick + 1) k
            (by omega) htick' heq
          refine ⟨ih.1, le_trans (Nat.le_succ _) ih.2.1, ih.2.2.1, ?_⟩
          intro j h1 h2
          rcases Nat.eq_or_lt_of_le h1 with h | h
          · rw [h] at hd
            simpa using hd
          · exact ih.2.2.2 j h h2

/-- Helper for C9: inversion of a timed-out run of the interval loop.
With enough fuel and a start tick in range, a `(false, k)` outcome means
the loop stopped exactly at tick 20 — when cumulative elapsed time first
reaches `MAX_WAIT` — with no tick in `[tick, 20]` detecting. -/
theorem pollTicks_timed_out (detectAt : ℕ → Bool) :
    ∀ (fuel tick k : ℕ), 21 ≤ tick + fuel → 1 ≤ tick → tick ≤ 20 →
      pollTicks detectAt tick fuel = (false, k) →
      k = 20 ∧ ∀ j, tick ≤ j → j ≤ 20 → detectAt j = false
  | 0, tick, k, hfuel, _, htick, heq => by omega
  | fuel + 1, tick, k, hfuel, htick1, htick, heq => by
      rw [pollTicks] at heq
      by_cases hd : detectAt tick = true
      · rw [if_pos hd] at heq
        exact absurd heq (by simp)
      · rw [if_neg hd] at heq
        by_cases hel : MAX_WAIT ≤ tick * POLL_INTERVAL
        · rw [if_pos hel] at heq
          have h20 : tick = 20 := by
            simp [MAX_WAIT, POLL_INTERVAL] at hel
            omega
          have hk : tick = k := by simpa using heq
          subst hk
          refine ⟨h20, ?_⟩
          intro j h1 h2
          have : j = tick := by omega
          rw [this]
          simpa using hd
        · rw [if_neg hel] at heq
          have htick' : tick + 1 ≤ 20 := by
            simp [MAX_WAIT, POLL_INTERVAL] at hel
            omega
          have ih := pollTicks_timed_out detectAt fuel (tick + 1) k
            (by omega) (by omega) htick' heq
          refine ⟨ih.1, ?_⟩
          intro j h1 h2
          rcases Nat.eq_or_lt_of_le h1 with h | h
          · rw [h] at hd
            simpa using hd
          · exact ih.2 j h h2

/-- C9: with the engine undetected at activation, the interval loop
performs at most 20 checks; a `(detected k)` outcome is the first
detecting tick within the window, a timed-out run stops at exactly tick
20, an engine that never appears during the window yields
`timedOut 20`, and on detection the wired-up callback applies the
then-current speed to the engine timeline via `applyGSAP`. -/
theorem startGSAPPolling_bounded (detectAt : ℕ → Bool)
    (h0 : detectAt 0 = false) :
    (∀ k, startGSAPPolling detectAt = PollResult.detected k →
        detectAt k = true ∧ 1 ≤ k ∧ k ≤ 20
          ∧ ∀ j, 1 ≤ j → j < k → detectAt j = false)
    ∧ (∀ k, startGSAPPolling detectAt = PollResult.timedOut k →
        k = 20 ∧ ∀ j, 1 ≤ j → j ≤ 20 → detectAt j = false)
    ∧ ((∀ j, 1 ≤ j → j ≤ 20 → detectAt j = false) →
        startGSAPPolling detectAt = PollResult.timedOut 20)
    ∧ (∃ k, k ≤ 20 ∧ (startGSAPPolling detectAt = PollResult.detected k
        ∨ startGSAPPolling detectAt = PollResult.timedOut k))
    ∧ (∀ sp ts : ℚ,
        onGSAPDetected (some sp) (GSAPWorld.mk (some ts) none)
          = GSAPWorld.mk (some (ts * sp)) (some ts)) := by
  have hstart : startGSAPPolling detectAt =
      match pollTicks detectAt 1 (MAX_WAIT / POLL_INTERVAL) with
      | (true, k) => PollResult.detected k
      | (false, k) => PollResult.timedOut k := by
    simp [startGSAPPolling, h0]
  have hfuel : MAX_WAIT / POLL_INTERVAL = 20 := by decide
  obtain ⟨b, k0, hbk⟩ : ∃ b k0,
      pollTicks detectAt 1 (MAX_WAIT / POLL_INTERVAL) = (b, k0) :=
    ⟨_, _, rfl⟩
  rw [hbk] at hstart
  refine ⟨?_, ?_, ?_, ?_, ?_⟩
  · intro k hk
    rw [hstart] at hk
    cases b with
    | false => simp at hk
    | true =>
        simp at hk
        subst hk
        rw [hfuel] at hbk
        exact pollTicks_detected detectAt 20 1 k0 (by omega) (by omega) hbk
  · intro k hk
    rw [hstart] at hk
    cases b with
    | true => simp at hk
    | false =>
        simp at hk
        subst hk
        rw [hfuel] at hbk
        exact pollTicks_timed_out detectAt 20 1 k0 (by omega) (by omega)
          (by omega) hbk
  · intro hall
    rw [hstart]
    cases b with
    | true =>
        rw [hfuel] at hbk
        have h := pollTicks_detected detectAt 20 1 k0 (by omega) (by omega) hbk
        have := hall k0 h.2.1 h.2.2.1
        rw [this] at h
        exact absurd h.1 (by simp)
    | false =>
        rw [hfuel] at hbk
        have h := pollTicks_timed_out detectAt 20 1 k0 (by omega) (by omega)
          (by omega) hbk
        rw [h.1]
  · cases b with
    | true =>
        rw [hfuel] at hbk
        have h := pollTicks_detected detectAt 20 1 k0 (by omega) (by omega) hbk
        exact ⟨k0, h.2.2.1, Or.inl hstart⟩
    | false =>
        rw [hfuel] at hbk
        have h := pollTicks_timed_out detectAt 20 1 k0 (by omega) (by omega)
          (by omega) hbk
        exact ⟨k0, by omega, Or.inr hstart⟩
  · intro sp ts
    simp [onGSAPDetected, applyGSAP]

/-- Witness for C9: an engine that appears at tick 3.  The polling run
detects it at the third check, and the callback at current speed `1/4`
rescales a timeline sitting at time-scale 2 to `1/2`. -/
theorem startGSAPPolling_bounded_witness :
    ((fun k => decide (k = 3)) 0 = false) ∧
    startGSAPPolling (fun k => decide (k = 3)) = PollResult.detected 3
    ∧ onGSAPDetected (some (1/4)) (GSAPWorld.mk (some 2) none)
        = GSAPWorld.mk (some (2 * (1/4))) (some 2) := by
  have h := startGSAPPolling_bounded (fun k => decide (k = 3)) (by decide)
  exact ⟨by decide, by decide, h.2.2.2.2 (1/4) 2⟩

/-! ### Claim C10 — monotonic virtual time -/

/-- Helper for C10: `outMono` implies the delivered list is a
nondecreasing chain. -/
theorem outMono_chain : ∀ (ld : Option ℚ) (l : List ℚ),
    outMono ld l → List.Chain' (· ≤ ·) l
  | _, [], _ => List.chain'_nil
  | ld, x :: l, h => by
      have hrec := outMono_chain (some x) l h.2
      cases l with
      | nil => simp
      | cons y ys =>
          rw [List.chain'_cons]
          exact ⟨h.2.1 x rfl, hrec⟩

/-- Helper for C10: the run invariant is preserved and forces the
delivered timestamps to be `outMono`-nondecreasing. -/
theorem runSched_outMono (tok : String) :
    ∀ (evts : List SchedEvent) (s : ClockState) (ld lf : Option ℚ),
      (∀ e ∈ evts, validEvent tok e) → framesMono lf evts →
      ClockInv s ld lf → outMono ld (runSched tok s evts).2
  | [], s, ld, lf, _, _, _ => trivial
  | SchedEvent.msg m :: rest, s, ld, lf, hvalid, hmono, hinv => by
      have hm : validSetSpeed tok m := hvalid (SchedEvent.msg m) (by simp)
      obtain ⟨h1, h2, h3, h4, h5, h6, h7⟩ := hm
      have hmsg : handleMessage tok s m =
          ⟨m.speed, none, none⟩ := by
        simp [handleMessage, h1, h2, h3, h4, h5]
      have hinv' : ClockInv ⟨m.speed, none, none⟩ ld lf :=
        ⟨⟨h6, h7⟩, Or.inl ⟨rfl, rfl⟩, hinv.2.2⟩
      have hrec := runSched_outMono tok rest ⟨m.speed, none, none⟩ ld lf
        (fun e he => hvalid e (by simp [he])) hmono hinv'
      simpa [runSched, hmsg] using hrec
  | SchedEvent.frame t :: rest, s, ld, lf, hvalid, hmono, hinv => by
      obtain ⟨hlft, hmono'⟩ := hmono
      have hvalid' : ∀ e ∈ rest, validEvent tok e :=
        fun e he => hvalid e (by simp [he])
      have hldt : ∀ p, ld = some p → p ≤ t := by
        intro p hp
        obtain ⟨tp, htp, hptp⟩ := hinv.2.2 p hp
        exact le_trans hptp (hlft tp htp)
      by_cases hf : s.speedFactor = 1
      · have hanch : s.lastRealTime = none ∧ s.virtualTime = none := by
          rcases hinv.2.1 with h | ⟨lr, v, _, _, _, _, _, hne⟩
          · exact h
          · exact absurd hf hne
        have hstep : slooowRAF s t = (s, t) := by
          simp [slooowRAF, hf]
        have hinv' : ClockInv s (some t) (some t) :=
          ⟨hinv.1, Or.inl hanch, fun x hx => ⟨t, rfl, le_of_eq
            (Option.some_injective ℚ hx).symm⟩⟩
        have hrec := runSched_outMono tok rest s (some t) (some t)
          hvalid' hmono' hinv'
        simp only [runSched, hstep]
        exact ⟨hldt, hrec⟩
      · rcases hinv.2.1 with ⟨hn1, hn2⟩ | ⟨lr, v, hlr, hv, hvlr, hlf, hld, _⟩
        · -- anchors unset: this frame seeds them and delivers `t`
          have hstep : slooowRAF s t =
              ({ s with lastRealTime := some t, virtualTime := some t }, t) := by
            simp [slooowRAF, hf, hn1]
            all_goals exact Or.inl (by norm_num [MAX_DELTA])
          have hinv' : ClockInv
              { s with lastRealTime := some t, virtualTime := some t }
              (some t) (some t) :=
            ⟨hinv.1, Or.inr ⟨t, t, rfl, rfl, le_refl t, rfl, rfl, hf⟩,
             fun x hx => ⟨t, rfl, le_of_eq (Option.some_injective ℚ hx).symm⟩⟩
          have hrec := runSched_outMono tok rest _ (some t) (some t)
            hvalid' hmono' hinv'
          simp only [runSched, hstep]
          exact ⟨hldt, hrec⟩
        · -- anchors set: clamp the delta and advance virtual time
          have hlrt : lr ≤ t := hlft lr hlf
          have hpos : 0 < s.speedFactor := hinv.1.1
          have hle1 : s.speedFactor ≤ 1 := hinv.1.2
          have hdelta0 : 0 ≤ min (t - lr) MAX_DELTA :=
            le_min (by linarith) (by norm_num [MAX_DELTA])
          have hdeltat : min (t - lr) MAX_DELTA ≤ t - lr := min_le_left _ _
          have hstep : slooowRAF s t =
              (ClockState.mk s.speedFactor (some t)
                  (some (v + min (t - lr) MAX_DELTA * s.speedFactor)),
               v + min (t - lr) MAX_DELTA * s.speedFactor) := by
            simp [slooowRAF, hf, hlr, hv]
          have hvout : v ≤ v + min (t - lr) MAX_DELTA * s.speedFactor := by
            nlinarith
          have houtt : v + min (t - lr) MAX_DELTA * s.speedFactor ≤ t := by
            nlinarith
          have hinv' : ClockInv
              (ClockState.mk s.speedFactor (some t)
                (some (v + min (t - lr) MAX_DELTA * s.speedFactor)))
              (some (v + min (t - lr) MAX_DELTA * s.speedFactor)) (some t) :=
            ⟨hinv.1,
             Or.inr ⟨t, _, rfl, rfl, houtt, rfl, rfl, hf⟩,
             fun x hx => ⟨t, rfl,
               le_trans (le_of_eq (Option.some_injective ℚ hx).symm) houtt⟩⟩
          have hrec := runSched_outMono tok rest _ _ (some t)
            hvalid' hmono' hinv'
          simp only [runSched, hstep]
          refine ⟨?_, hrec⟩
          intro p hp
          have : p = v := Option.some_injective ℚ (hld ▸ hp.symm)
          rw [this]
          exact hvout

/-- C10: from the initial scheduler state, every interleaving of frames
with nondecreasing real timestamps and authenticated `SET_SPEED`
messages with speeds in `(0, 1]` produces a nondecreasing sequence of
delivered timestamps. -/
theorem virtualTime_monotone (tok : String) (evts : List SchedEvent)
    (hvalid : ∀ e ∈ evts, validEvent tok e)
    (hmono : framesMono none evts) :
    List.Chain' (· ≤ ·) (runSched tok initClock evts).2 := by
  have hinv : ClockInv initClock none none := by
    refine ⟨⟨one_pos, le_refl 1⟩, Or.inl ⟨rfl, rfl⟩, ?_⟩
    intro x hx
    simp at hx
  exact outMono_chain none _ (runSched_outMono tok evts initClock none none
    hvalid hmono hinv)

/-- Witness for C10: a run at 1x over frames 0 and 50, an authenticated
`SET_SPEED(1/2)`, then frames 60, 80 and 300 (the last jump exceeding
`MAX_DELTA`); the delivered timestamps form a nondecreasing chain. -/
theorem virtualTime_monotone_witness :
    validEvent "t" (SchedEvent.msg
      (BridgeMsg.mk true true "__slooow__" "t" "SET_SPEED" (1/2)))
    ∧ framesMono none
        [SchedEvent.frame 0, SchedEvent.frame 50,
         SchedEvent.msg
           (BridgeMsg.mk true true "__slooow__" "t" "SET_SPEED" (1/2)),
         SchedEvent.frame 60, SchedEvent.frame 80, SchedEvent.frame 300]
    ∧ List.Chain' (· ≤ ·) (runSched "t" initClock
        [SchedEvent.frame 0, SchedEvent.frame 50,
         SchedEvent.msg
           (BridgeMsg.mk true true "__slooow__" "t" "SET_SPEED" (1/2)),
         SchedEvent.frame 60, SchedEvent.frame 80, SchedEvent.frame 300]).2 := by
  have hv : ∀ e ∈
      [SchedEvent.frame 0, SchedEvent.frame 50,
       SchedEvent.msg
         (BridgeMsg.mk true true "__slooow__" "t" "SET_SPEED" (1/2)),
       SchedEvent.frame (60:ℚ), SchedEvent.frame 80, SchedEvent.frame 300],
      validEvent "t" e := by
    intro e he
    simp at he
    rcases he with rfl | rfl | rfl | rfl | rfl | rfl <;>
      simp [validEvent, validSetSpeed] <;> norm_num
  have hm : framesMono none
      [SchedEvent.frame 0, SchedEvent.frame 50,
       SchedEvent.msg
         (BridgeMsg.mk true true "__slooow__" "t" "SET_SPEED" (1/2)),
       SchedEvent.frame (60:ℚ), SchedEvent.frame 80, SchedEvent.frame 300] := by
    simp [framesMono]
    norm_num
  exact ⟨hv _ (by simp), hm, virtualTime_monotone "t" _ hv hm⟩
